import Mathlib

/-
Shallow embedding of the animation and update loop of the christmas-village
scene (src/main.js).  Real-number quantities are modelled over ℚ; the few
library calls to sqrt, sin, cos and atan2 are represented by explicit value
parameters constrained (in the theorems) by their defining algebraic
properties, e.g. a parameter n with 0 ≤ n and n * n = x * x + z * z stands
for Math.sqrt(x * x + z * z).  Comparisons of square roots of nonnegative
quantities are embedded as comparisons of their squares, which is
order-faithful.  Each Math.random() draw appears as an explicit rational
parameter in [0, 1).
-/

namespace ChristmasVillage

/-- Rational 3D vector, embedding THREE.Vector3. -/
structure Vec3 where
  x : ℚ
  y : ℚ
  z : ℚ
deriving DecidableEq, Repr

def vzero : Vec3 := ⟨0, 0, 0⟩

def vadd (a b : Vec3) : Vec3 := ⟨a.x + b.x, a.y + b.y, a.z + b.z⟩

def vsub (a b : Vec3) : Vec3 := ⟨a.x - b.x, a.y - b.y, a.z - b.z⟩

def smul (c : ℚ) (v : Vec3) : Vec3 := ⟨c * v.x, c * v.y, c * v.z⟩

def sqNorm (v : Vec3) : ℚ := v.x * v.x + v.y * v.y + v.z * v.z

def distSq (a b : Vec3) : ℚ := sqNorm (vsub a b)

/-- THREE.Vector3.normalize divides by the length, or by 1 when the length is
0 (divideScalar(this.length() || 1)); n stands for the library square root of
sqNorm v, so n = 0 exactly when v is the zero vector. -/
def normalizeWith (n : ℚ) (v : Vec3) : Vec3 :=
  if n = 0 then v else smul (1 / n) v

/-- One snow-drift mesh of the snowAccumulationGroup: world position, the
rotation.y draw, the scale factors, the cone-geometry parameters, and the
per-drift growth data stored in userData. -/
structure Drift where
  px : ℚ
  py : ℚ
  pz : ℚ
  rotY : ℚ
  sx : ℚ
  sy : ℚ
  sz : ℚ
  geomRadius : ℚ
  geomHeight : ℚ
  maxHeight : ℚ
  growthRate : ℚ
deriving DecidableEq, Repr

instance : Inhabited Drift :=
  ⟨{ px := 0, py := 0, pz := 0, rotY := 0, sx := 1, sy := 1, sz := 1,
     geomRadius := 1, geomHeight := 1, maxHeight := 1, growthRate := 0 }⟩

/-- Squared horizontal distance from a drift to an impact point; the source
compares Math.sqrt of this against the radius and against the running minimum,
which is order-equivalent to comparing the squares. -/
def distSqXZ (d : Drift) (x z : ℚ) : ℚ :=
  (d.px - x) * (d.px - x) + (d.pz - z) * (d.pz - z)

/-- The drift-growth step shared by addToSnowCover and updateSnow: while
scale.y is below userData.maxHeight, scale.y grows by growthRate, scale.x and
scale.z by growthRate * 0.5, and position.y is re-derived as
geometry height * new scale.y / 2; otherwise the drift is untouched. -/
def growDrift (d : Drift) : Drift :=
  if d.sy < d.maxHeight then
    { d with
      sy := d.sy + d.growthRate
      sx := d.sx + d.growthRate * (1/2)
      sz := d.sz + d.growthRate * (1/2)
      py := d.geomHeight * (d.sy + d.growthRate) / 2 }
  else d

/-- The forEach scan of addToSnowCover over snowAccumulationGroup.children,
as a structural recursion: it returns the index and squared distance of the
first drift attaining the minimal distance among those with distance below
the radius 2 (squared: 4), or none when no drift is that close.  The mutable
foldl of the source keeps an already-seen candidate unless a strictly closer
drift appears, which is exactly the tie-breaking below. -/
def findNearest (x z : ℚ) : List Drift → Option (Nat × ℚ)
  | [] => none
  | d :: ds =>
    match findNearest x z ds with
    | none => if distSqXZ d x z < 4 then some (0, distSqXZ d x z) else none
    | some (j, m) =>
      if distSqXZ d x z < 4 then
        if m < distSqXZ d x z then some (j + 1, m) else some (0, distSqXZ d x z)
      else some (j + 1, m)

/-- The Math.random() draws consumed by the spawn branch of addToSnowCover:
the 5 percent roll, the height draw, the sampled rotation.y value, and the
growth-rate draw. -/
structure SpawnRand where
  roll : ℚ
  hRand : ℚ
  rot : ℚ
  gRand : ℚ
deriving DecidableEq, Repr

/-- The drift spawned by addToSnowCover at an impact point: cone of radius
0.5 and height 0.2 + hRand * 0.2, base at ground level, scale 1, with
userData.maxHeight = height * 2 and growthRate = 0.0001 + gRand * 0.0001. -/
def newDrift (x z : ℚ) (r : SpawnRand) : Drift :=
  { px := x
    py := (1/5 + r.hRand * (1/5)) / 2
    pz := z
    rotY := r.rot
    sx := 1
    sy := 1
    sz := 1
    geomRadius := 1/2
    geomHeight := 1/5 + r.hRand * (1/5)
    maxHeight := (1/5 + r.hRand * (1/5)) * 2
    growthRate := 1/10000 + r.gRand * (1/10000) }

/-- addToSnowCover(x, z): grow the nearest drift within radius 2 of the
impact, if any; otherwise spawn a new drift exactly when the 5 percent roll
succeeds, and otherwise do nothing. -/
def addToSnowCover (x z : ℚ) (r : SpawnRand) (ds : List Drift) : List Drift :=
  match findNearest x z ds with
  | some p => ds.set p.1 (growDrift (ds.getD p.1 default))
  | none => if r.roll < 1/20 then ds ++ [newDrift x z r] else ds

/-- One drift built by createInitialSnowDrifts, from its Math.random() draws:
cone radius rRad * 2 + 1, height rH * 0.3 + 0.1, base at ground level inside
the 80 x 80 square, scale 1, maxHeight = height * 2,
growthRate = 0.0001 + rG * 0.0001. -/
def initialDrift (rRad rH rX rZ rot rG : ℚ) : Drift :=
  { px := (rX - 1/2) * 80
    py := (rH * (3/10) + 1/10) / 2
    pz := (rZ - 1/2) * 80
    rotY := rot
    sx := 1
    sy := 1
    sz := 1
    geomRadius := rRad * 2 + 1
    geomHeight := rH * (3/10) + 1/10
    maxHeight := (rH * (3/10) + 1/10) * 2
    growthRate := 1/10000 + rG * (1/10000) }

/-- The background growth tick of updateSnow for one drift: with the 1 percent
roll, apply the shared growth step. -/
def updateSnowDrift (roll : ℚ) (d : Drift) : Drift :=
  if roll < 1/100 then growDrift d else d

/-- A particle with a position and a velocity (one slot of the parallel
position/velocity arrays). -/
structure Particle where
  pos : Vec3
  vel : Vec3
deriving DecidableEq, Repr

/-- The Math.random() draws consumed by one snow-particle reset: new x and z,
and the three velocity draws. -/
structure ResetRand where
  rx : ℚ
  rz : ℚ
  rvx : ℚ
  rvy : ℚ
  rvz : ℚ
deriving DecidableEq, Repr

/-- The integration step of animateSnow for one particle: position advances by
velocity plus the shared wind terms (wX and wZ stand for sin(time * 0.5) * 0.1
and cos(time * 0.3) * 0.1, the same values for every particle of the tick). -/
def snowIntegrate (wX wZ : ℚ) (p : Particle) : Particle :=
  ⟨⟨p.pos.x + p.vel.x + wX, p.pos.y + p.vel.y, p.pos.z + p.vel.z + wZ⟩, p.vel⟩

/-- The reset target of animateSnow: random x and z inside ±60, y at the
maximum height 80, and freshly randomized velocity. -/
def snowReset (r : ResetRand) : Particle :=
  ⟨⟨(r.rx - 1/2) * 120, 80, (r.rz - 1/2) * 120⟩,
   ⟨(r.rvx - 1/2) * (1/5), -(r.rvy * (3/10)) - 1/5, (r.rvz - 1/2) * (1/5)⟩⟩

/-- The edge wrap of animateSnow on one horizontal coordinate: the two
sequential ifs of the source send a coordinate beyond 60 to -60 and a
coordinate beyond -60 to 60. -/
def wrapEdge (c : ℚ) : ℚ := if c > 60 then -60 else if c < -60 then 60 else c

/-- animateSnow for one particle: integrate with wind, reset when the new y
is below 0, then wrap x and z at the ±60 boundary.  This function contains no
call to addToSnowCover. -/
def animateSnowParticle (wX wZ : ℚ) (r : ResetRand) (p : Particle) : Particle :=
  if (snowIntegrate wX wZ p).pos.y < 0 then
    ⟨⟨wrapEdge (snowReset r).pos.x, (snowReset r).pos.y, wrapEdge (snowReset r).pos.z⟩,
     (snowReset r).vel⟩
  else
    ⟨⟨wrapEdge (snowIntegrate wX wZ p).pos.x, (snowIntegrate wX wZ p).pos.y,
      wrapEdge (snowIntegrate wX wZ p).pos.z⟩, (snowIntegrate wX wZ p).vel⟩

/-- The per-frame snow tick together with the list of addToSnowCover impact
events it raises: animateSnow performs resets and wraps but never invokes
addToSnowCover, so the event list is empty by construction. -/
def animateSnowParticleEv (wX wZ : ℚ) (r : ResetRand) (p : Particle) :
    Particle × List (ℚ × ℚ) :=
  (animateSnowParticle wX wZ r p, [])

/-- The falling-snow branch of updateSnow for one particle: at or below the
ground plane (y ≤ 0) it first records one addToSnowCover impact at the
current (x, z) of the particle, then resets the particle to height 50 with fresh
random position and velocity; otherwise it leaves the particle alone.  The
returned list holds the addToSnowCover invocations of the branch. -/
def updateSnowParticle (r : ResetRand) (p : Particle) : Particle × List (ℚ × ℚ) :=
  if p.pos.y ≤ 0 then
    (⟨⟨(r.rx - 1/2) * 100, 50, (r.rz - 1/2) * 100⟩,
      ⟨(r.rvx - 1/2) * (1/10), -(r.rvy * (1/2)) - 1/10, (r.rvz - 1/2) * (1/10)⟩⟩,
     [(p.pos.x, p.pos.z)])
  else (p, [])

/-- One chimney-smoke particle: position, velocity and normalized lifetime. -/
structure SmokeParticle where
  pos : Vec3
  vel : Vec3
  lifetime : ℚ
deriving DecidableEq, Repr

/-- The chimney-smoke branch of updateParticleSystems for one particle:
lifetime advances by deltaTime; on reaching 1 the particle resets to an
emitter-local random origin with lifetime 0, otherwise the position integrates
velocity * deltaTime. -/
def updateSmokeParticle (dt rx rz : ℚ) (p : SmokeParticle) : SmokeParticle :=
  if 1 ≤ p.lifetime + dt then
    ⟨⟨(rx - 1/2) * (1/10), 0, (rz - 1/2) * (1/10)⟩, p.vel, 0⟩
  else
    ⟨vadd p.pos (smul dt p.vel), p.vel, p.lifetime + dt⟩

/-- One firefly: position and point size. -/
structure Firefly where
  pos : Vec3
  size : ℚ
deriving DecidableEq, Repr

/-- The firefly branch of updateParticleSystems for one particle: the
deltaTime argument is never referenced by this branch of the source; sinFlick
stands for sin(time * 2 + idx), szRand for the Math.random() draw and sinBob
for sin(time + idx).  Only position.y moves, by sinBob * 0.002. -/
def updateFirefly (dt sinFlick szRand sinBob : ℚ) (p : Firefly) : Firefly :=
  ⟨⟨p.pos.x, p.pos.y + sinBob * (1/500), p.pos.z⟩,
   (sinFlick * (1/10) + 1/5) * (szRand * (1/5) + 9/10)⟩

/-- The integration step of the ground-mist branch of updateParticleSystems
for one particle: x and z advance by velocity, y by the bob term; sinBob
stands for sin(time + i). -/
def mistIntegrate (sinBob : ℚ) (p : Particle) : Particle :=
  ⟨⟨p.pos.x + p.vel.x, p.pos.y + sinBob * (1/1000), p.pos.z + p.vel.z⟩, p.vel⟩

/-- The ground-mist branch of updateParticleSystems for one particle: the
deltaTime argument is never referenced by this branch of the source.  After
integration the radial clamp fires when sqrt(x1² + z1²) > 40 (embedded as
x1² + z1² > 1600); n stands for that library square root, so
cos(atan2(z1, x1)) * 40 = x1 / n * 40 and sin(atan2(z1, x1)) * 40 =
z1 / n * 40. -/
def updateMistParticle (dt sinBob n : ℚ) (p : Particle) : Particle :=
  if (mistIntegrate sinBob p).pos.x * (mistIntegrate sinBob p).pos.x +
      (mistIntegrate sinBob p).pos.z * (mistIntegrate sinBob p).pos.z > 1600 then
    ⟨⟨(mistIntegrate sinBob p).pos.x / n * 40, (mistIntegrate sinBob p).pos.y,
      (mistIntegrate sinBob p).pos.z / n * 40⟩, p.vel⟩
  else mistIntegrate sinBob p

/-- Path-follower state of an elf or of Santa: world position,
userData.pathIndex, and the point the entity was last turned toward by
lookAt. -/
structure Follower where
  pos : Vec3
  pathIndex : Nat
  facing : Vec3
deriving DecidableEq, Repr

/-- The upcoming waypoint of a follower: path[(pathIndex + 1) % path.length]. -/
def followerNext (path : List Vec3) (f : Follower) : Vec3 :=
  path.getD ((f.pathIndex + 1) % path.length) vzero

/-- The post-move position of a follower tick: the current position plus the
normalized direction from the waypoint at pathIndex to the upcoming waypoint,
scaled by moveSpeed (no deltaTime factor appears in animateCharacters); n
stands for the library length of the waypoint difference. -/
def followerNewPos (path : List Vec3) (moveSpeed n : ℚ) (f : Follower) : Vec3 :=
  vadd f.pos (smul moveSpeed
    (normalizeWith n (vsub (followerNext path f) (path.getD f.pathIndex vzero))))

/-- One animateCharacters tick for one path follower (elf or Santa): the
entity translates to followerNewPos, lookAt turns it toward the upcoming
waypoint, and pathIndex advances to (pathIndex + 1) % length exactly when the
post-move distance to that waypoint is below 0.1 (embedded as squared
distance below 1/100). -/
def animateFollower (path : List Vec3) (moveSpeed n : ℚ) (f : Follower) : Follower :=
  { pos := followerNewPos path moveSpeed n f
    pathIndex :=
      if distSq (followerNewPos path moveSpeed n f) (followerNext path f) < 1/100 then
        (f.pathIndex + 1) % path.length
      else f.pathIndex
    facing := followerNext path f }

/-- Modelled from the spec: the THREE.LOD level selector is library code that
is not part of this repository; per the spec it selects the level whose
threshold is the greatest value at most the camera distance, walking the
ascending threshold list and stopping at the first threshold above the
distance (level 0 is the default).  This helper walks the thresholds after
level 0. -/
def lodSelectAux (dist : ℚ) : Nat → List ℚ → Nat
  | i, [] => i
  | i, t :: ts => if t ≤ dist then lodSelectAux dist (i + 1) ts else i

/-- Modelled from the spec: index of the LOD level selected at a given camera
distance, for an ascending threshold list. -/
def lodSelect (thresholds : List ℚ) (dist : ℚ) : Nat :=
  match thresholds with
  | [] => 0
  | _ :: rest => lodSelectAux dist 0 rest

/-- The three thresholds each house registers in createDetailedHouses:
high detail at 0, medium at 50, low at 100. -/
def houseLODThresholds : List ℚ := [0, 50, 100]

/-- The JavaScript remainder a % b for a nonnegative dividend and positive
divisor (trunc-division remainder, which is floor-division here). -/
def jsMod (a b : ℚ) : ℚ := a - b * (⌊a / b⌋ : ℚ)

/-- The gate of the conditional secondary updates in animate:
frameSkip = time % 2 < deltaTime, with time the elapsed clock in seconds and
deltaTime the frame delta in seconds. -/
def frameSkip (time dt : ℚ) : Bool := decide (jsMod time 2 < dt)

theorem sqNorm_smul (c : ℚ) (v : Vec3) : sqNorm (smul c v) = c * c * sqNorm v := by
  cases v with
  | mk x y z => simp only [smul, sqNorm]; ring

theorem sqNorm_eq_zero_iff (v : Vec3) : sqNorm v = 0 ↔ v = vzero := by
  cases v with
  | mk x y z =>
    simp only [sqNorm, vzero, Vec3.mk.injEq]
    constructor
    · intro h
      have hx : x * x = 0 :=
        le_antisymm (by nlinarith [mul_self_nonneg y, mul_self_nonneg z]) (mul_self_nonneg x)
      have hy : y * y = 0 :=
        le_antisymm (by nlinarith [mul_self_nonneg x, mul_self_nonneg z]) (mul_self_nonneg y)
      have hz : z * z = 0 :=
        le_antisymm (by nlinarith [mul_self_nonneg x, mul_self_nonneg y]) (mul_self_nonneg z)
      exact ⟨mul_self_eq_zero.mp hx, mul_self_eq_zero.mp hy, mul_self_eq_zero.mp hz⟩
    · rintro ⟨hx, hy, hz⟩
      subst hx; subst hy; subst hz; ring

theorem vsub_vadd_left (a b : Vec3) : vsub (vadd a b) a = b := by
  cases a with
  | mk ax ay az =>
    cases b with
    | mk bx by1 bz => simp only [vadd, vsub, Vec3.mk.injEq]; refine ⟨by ring, by ring, by ring⟩

theorem getD_set_ne : ∀ (ds : List Drift) (j k : Nat) (a : Drift), k ≠ j →
    (ds.set j a).getD k default = ds.getD k default
  | [], _, _, _, _ => rfl
  | _ :: _, 0, 0, _, h => absurd rfl h
  | _ :: _, 0, _ + 1, _, _ => by simp [List.set]
  | _ :: _, _ + 1, 0, _, _ => by simp [List.set]
  | _ :: ds, j + 1, k + 1, a, h => by
    simp only [List.set, List.getD_cons_succ]
    exact getD_set_ne ds j k a (fun hh => h (by omega))

theorem findNearest_none (x z : ℚ) {ds : List Drift} (h : findNearest x z ds = none) :
    ∀ k, k < ds.length → ¬ distSqXZ (ds.getD k default) x z < 4 := by
  induction ds with
  | nil => intro k hk; exact absurd hk (by simp)
  | cons d ds ih =>
    intro k hk
    cases htail : findNearest x z ds with
    | none =>
      simp only [findNearest, htail] at h
      by_cases hc : distSqXZ d x z < 4
      · rw [if_pos hc] at h; exact absurd h (by simp)
      · rw [if_neg hc] at h
        cases k with
        | zero => simpa using hc
        | succ k =>
          simp only [List.getD_cons_succ]
          exact ih htail k (by simpa using hk)
    | some p =>
      rcases p with ⟨j, m⟩
      simp only [findNearest, htail] at h
      by_cases hc : distSqXZ d x z < 4
      · rw [if_pos hc] at h
        by_cases hlt : m < distSqXZ d x z
        · rw [if_pos hlt] at h; exact absurd h (by simp)
        · rw [if_neg hlt] at h; exact absurd h (by simp)
      · rw [if_neg hc] at h; exact absurd h (by simp)

theorem findNearest_some (x z : ℚ) :
    ∀ (ds : List Drift) (j : Nat) (m : ℚ), findNearest x z ds = some (j, m) →
      j < ds.length ∧ m = distSqXZ (ds.getD j default) x z ∧ m < 4 ∧
      ∀ k, k < ds.length → distSqXZ (ds.getD k default) x z < 4 →
        m ≤ distSqXZ (ds.getD k default) x z := by
  intro ds
  induction ds with
  | nil => intro j m h; exact absurd h (by simp [findNearest])
  | cons d ds ih =>
    intro j m h
    cases htail : findNearest x z ds with
    | none =>
      simp only [findNearest, htail] at h
      by_cases hc : distSqXZ d x z < 4
      · rw [if_pos hc] at h
        simp only [Option.some.injEq, Prod.mk.injEq] at h
        obtain ⟨hj, hm⟩ := h
        subst hj; subst hm
        refine ⟨by simp, by simp, hc, ?_⟩
        intro k hk hkin
        cases k with
        | zero => simp
        | succ k =>
          simp only [List.getD_cons_succ] at hkin
          exact absurd hkin (findNearest_none x z htail k (by simpa using hk))
      · rw [if_neg hc] at h; exact absurd h (by simp)
    | some p =>
      rcases p with ⟨j1, m1⟩
      obtain ⟨hjlen, hmval, hmlt, hmin⟩ := ih j1 m1 htail
      simp only [findNearest, htail] at h
      by_cases hc : distSqXZ d x z < 4
      · rw [if_pos hc] at h
        by_cases hlt : m1 < distSqXZ d x z
        · rw [if_pos hlt] at h
          simp only [Option.some.injEq, Prod.mk.injEq] at h
          obtain ⟨hj, hm⟩ := h
          subst hj; subst hm
          refine ⟨by simpa using hjlen, by simpa using hmval, hmlt, ?_⟩
          intro k hk hkin
          cases k with
          | zero => simpa using le_of_lt hlt
          | succ k =>
            simp only [List.getD_cons_succ] at hkin ⊢
            exact hmin k (by simpa using hk) hkin
        · rw [if_neg hlt] at h
          simp only [Option.some.injEq, Prod.mk.injEq] at h
          obtain ⟨hj, hm⟩ := h
          subst hj; subst hm
          refine ⟨by simp, by simp, hc, ?_⟩
          intro k hk hkin
          cases k with
          | zero => simp
          | succ k =>
            simp only [List.getD_cons_succ] at hkin ⊢
            exact le_trans (not_lt.mp hlt) (hmin k (by simpa using hk) hkin)
      · rw [if_neg hc] at h
        simp only [Option.some.injEq, Prod.mk.injEq] at h
        obtain ⟨hj, hm⟩ := h
        subst hj; subst hm
        refine ⟨by simpa using hjlen, by simpa using hmval, hmlt, ?_⟩
        intro k hk hkin
        cases k with
        | zero => exact absurd (by simpa using hkin) hc
        | succ k =>
          simp only [List.getD_cons_succ] at hkin ⊢
          exact hmin k (by simpa using hk) hkin

/-- Claim C8: addToSnowCover either grows the nearest drift within radius 2 of
the impact point (the selected index is within the radius and minimizes the
distance among all drifts within the radius), or, when no drift is within
radius 2, appends one new drift at (x, z) exactly when the 5 percent roll
succeeds and otherwise changes nothing; the growth step adds growthRate to
scale.y and growthRate * 0.5 to scale.x and scale.z and re-derives position.y
as cone height * new scale.y / 2, and applies only while scale.y is below
maxHeight; the spawned drift sits at (x, z) with randomized height and
individualized maxHeight and growthRate. -/
theorem addToSnowCover_spec (x z : ℚ) (r : SpawnRand) (ds : List Drift) :
    ((∃ j, j < ds.length ∧
        distSqXZ (ds.getD j default) x z < 4 ∧
        (∀ k, k < ds.length → distSqXZ (ds.getD k default) x z < 4 →
          distSqXZ (ds.getD j default) x z ≤ distSqXZ (ds.getD k default) x z) ∧
        addToSnowCover x z r ds = ds.set j (growDrift (ds.getD j default))) ∨
      ((∀ k, k < ds.length → ¬ distSqXZ (ds.getD k default) x z < 4) ∧
        addToSnowCover x z r ds =
          if r.roll < 1/20 then ds ++ [newDrift x z r] else ds)) ∧
    (∀ d : Drift, d.sy < d.maxHeight →
      growDrift d = { d with
        sy := d.sy + d.growthRate
        sx := d.sx + d.growthRate * (1/2)
        sz := d.sz + d.growthRate * (1/2)
        py := d.geomHeight * (d.sy + d.growthRate) / 2 }) ∧
    (∀ d : Drift, ¬ d.sy < d.maxHeight → growDrift d = d) ∧
    (newDrift x z r).px = x ∧ (newDrift x z r).pz = z ∧
    (newDrift x z r).geomHeight = 1/5 + r.hRand * (1/5) ∧
    (newDrift x z r).maxHeight = (1/5 + r.hRand * (1/5)) * 2 ∧
    (newDrift x z r).growthRate = 1/10000 + r.gRand * (1/10000) := by
  refine ⟨?_, ?_, ?_, rfl, rfl, rfl, rfl, rfl⟩
  · cases hfind : findNearest x z ds with
    | none =>
      right
      refine ⟨findNearest_none x z hfind, ?_⟩
      simp only [addToSnowCover, hfind]
    | some p =>
      rcases p with ⟨j, m⟩
      obtain ⟨hjlen, hmval, hmlt, hmin⟩ := findNearest_some x z ds j m hfind
      left
      refine ⟨j, hjlen, by rw [← hmval]; exact hmlt, ?_, ?_⟩
      · intro k hk hkin
        rw [← hmval]; exact hmin k hk hkin
      · simp only [addToSnowCover, hfind]
  · intro d hd
    simp only [growDrift, if_pos hd]
  · intro d hd
    simp only [growDrift, if_neg hd]

/-- Claim C8 witness: with no existing drift the impact with a failed roll
leaves the collection unchanged. -/
theorem addToSnowCover_spec_witness :
    addToSnowCover 0 0 ⟨1/2, 1/2, 0, 1/2⟩ [] = [] := by
  have h := (addToSnowCover_spec 0 0 ⟨1/2, 1/2, 0, 1/2⟩ []).1
  rcases h with ⟨j, hj, _⟩ | ⟨_, hres⟩
  · exact absurd hj (by simp)
  · rw [hres, if_neg (by norm_num)]

/-- Claim C10: a single addToSnowCover call rewrites at most one existing
drift, leaving every other index of the collection untouched, and the
collection either stays the same or gains exactly one drift at the end; it
never shrinks. -/
theorem addToSnowCover_frame (x z : ℚ) (r : SpawnRand) (ds : List Drift) :
    ds.length ≤ (addToSnowCover x z r ds).length ∧
    (addToSnowCover x z r ds).length ≤ ds.length + 1 ∧
    ((∃ j, j < ds.length ∧
        addToSnowCover x z r ds = ds.set j (growDrift (ds.getD j default)) ∧
        ∀ k, k ≠ j → (addToSnowCover x z r ds).getD k default = ds.getD k default) ∨
      addToSnowCover x z r ds = ds ∨
      addToSnowCover x z r ds = ds ++ [newDrift x z r]) := by
  cases hfind : findNearest x z ds with
  | none =>
    simp only [addToSnowCover, hfind]
    by_cases hroll : r.roll < 1/20
    · rw [if_pos hroll]
      refine ⟨by simp, by simp, Or.inr (Or.inr rfl)⟩
    · rw [if_neg hroll]
      exact ⟨le_refl _, by omega, Or.inr (Or.inl rfl)⟩
  | some p =>
    rcases p with ⟨j, m⟩
    obtain ⟨hjlen, _, _, _⟩ := findNearest_some x z ds j m hfind
    simp only [addToSnowCover, hfind]
    refine ⟨by simp, by simp, Or.inl ⟨j, hjlen, rfl, ?_⟩⟩
    intro k hk
    exact getD_set_ne ds j k _ hk

/-- Claim C10 witness: an impact on a one-drift collection leaves between one
and two drifts. -/
theorem addToSnowCover_frame_witness :
    1 ≤ (addToSnowCover 0 0 ⟨1/2, 1/2, 0, 1/2⟩ [default]).length ∧
    (addToSnowCover 0 0 ⟨1/2, 1/2, 0, 1/2⟩ [default]).length ≤ 2 := by
  have h := addToSnowCover_frame 0 0 ⟨1/2, 1/2, 0, 1/2⟩ [default]
  exact ⟨by simpa using h.1, by simpa using h.2.1⟩

/-- Claim C1 (defect exhibit): every drift the program creates starts with
scale.y = 1 while its userData.maxHeight is a world-space height of at most
4/5, because the creation sites set maxHeight to twice a cone height drawn
below 0.4 while scale starts at 1; the guard of the growth step compares the
dimensionless scale factor against that world height, so scale.y exceeds
maxHeight from the moment of creation and neither an impact nor the
background tick ever changes such a drift. -/
theorem drift_scale_exceeds_maxHeight (x z rRad rH rX rZ rot rG roll : ℚ)
    (r : SpawnRand) (hH0 : 0 ≤ rH) (hH1 : rH < 1)
    (hh0 : 0 ≤ r.hRand) (hh1 : r.hRand < 1) :
    (initialDrift rRad rH rX rZ rot rG).sy = 1 ∧
    (initialDrift rRad rH rX rZ rot rG).maxHeight < 1 ∧
    growDrift (initialDrift rRad rH rX rZ rot rG) = initialDrift rRad rH rX rZ rot rG ∧
    updateSnowDrift roll (initialDrift rRad rH rX rZ rot rG) =
      initialDrift rRad rH rX rZ rot rG ∧
    (newDrift x z r).sy = 1 ∧
    (newDrift x z r).maxHeight < 1 ∧
    growDrift (newDrift x z r) = newDrift x z r := by
  have hmi : (initialDrift rRad rH rX rZ rot rG).maxHeight < 1 := by
    show (rH * (3/10) + 1/10) * 2 < 1
    nlinarith
  have hgi : growDrift (initialDrift rRad rH rX rZ rot rG) =
      initialDrift rRad rH rX rZ rot rG := by
    have hguard : ¬ (initialDrift rRad rH rX rZ rot rG).sy <
        (initialDrift rRad rH rX rZ rot rG).maxHeight := by
      show ¬ (1 : ℚ) < (rH * (3/10) + 1/10) * 2
      push_neg
      nlinarith
    simp only [growDrift, if_neg hguard]
  have hmn : (newDrift x z r).maxHeight < 1 := by
    show (1/5 + r.hRand * (1/5)) * 2 < 1
    nlinarith
  have hgn : growDrift (newDrift x z r) = newDrift x z r := by
    have hguard : ¬ (newDrift x z r).sy < (newDrift x z r).maxHeight := by
      show ¬ (1 : ℚ) < (1/5 + r.hRand * (1/5)) * 2
      push_neg
      nlinarith
    simp only [growDrift, if_neg hguard]
  have hui : updateSnowDrift roll (initialDrift rRad rH rX rZ rot rG) =
      initialDrift rRad rH rX rZ rot rG := by
    by_cases hr : roll < 1/100
    · simp only [updateSnowDrift, if_pos hr, hgi]
    · simp only [updateSnowDrift, if_neg hr]
  exact ⟨rfl, hmi, hgi, hui, rfl, hmn, hgn⟩

/-- Claim C1 witness: a concrete drift born from each creation site already
has scale.y above maxHeight and is a fixed point of the growth step. -/
theorem drift_scale_exceeds_maxHeight_witness :
    growDrift (initialDrift 0 (1/2) 0 0 0 0) = initialDrift 0 (1/2) 0 0 0 0 ∧
    (newDrift 3 4 ⟨0, 1/2, 0, 0⟩).maxHeight < 1 ∧
    growDrift (newDrift 3 4 ⟨0, 1/2, 0, 0⟩) = newDrift 3 4 ⟨0, 1/2, 0, 0⟩ := by
  have h := drift_scale_exceeds_maxHeight 3 4 0 (1/2) 0 0 0 0 0 ⟨0, 1/2, 0, 0⟩
    (by norm_num) (by norm_num) (by norm_num) (by norm_num)
  exact ⟨h.2.2.1, h.2.2.2.2.2.1, h.2.2.2.2.2.2⟩

/-- Claim C4: one follower tick keeps pathIndex inside [0, L), changes it
only to (pathIndex + 1) % L, performs that advance exactly when the post-move
squared distance to the upcoming waypoint is below (0.1)^2 = 1/100, and wraps
from the last index back to 0 on arrival. -/
theorem follower_pathIndex_invariant (path : List Vec3) (s n : ℚ) (f : Follower)
    (hL : 0 < path.length) (hi : f.pathIndex < path.length) :
    (animateFollower path s n f).pathIndex < path.length ∧
    ((animateFollower path s n f).pathIndex = f.pathIndex ∨
      (animateFollower path s n f).pathIndex = (f.pathIndex + 1) % path.length) ∧
    ((animateFollower path s n f).pathIndex =
      if distSq (animateFollower path s n f).pos (followerNext path f) < 1/100 then
        (f.pathIndex + 1) % path.length
      else f.pathIndex) ∧
    (f.pathIndex + 1 = path.length →
      distSq (animateFollower path s n f).pos (followerNext path f) < 1/100 →
      (animateFollower path s n f).pathIndex = 0) := by
  refine ⟨?_, ?_, rfl, ?_⟩
  · simp only [animateFollower]
    split
    · exact Nat.mod_lt _ hL
    · exact hi
  · simp only [animateFollower]
    split
    · exact Or.inr rfl
    · exact Or.inl rfl
  · intro hlast harr
    simp only [animateFollower] at harr ⊢
    rw [if_pos harr, hlast, Nat.mod_self]

/-- Claim C4 witness: a concrete tick on a three-waypoint path keeps the
index in range. -/
theorem follower_pathIndex_invariant_witness :
    (animateFollower [⟨0, 0, 0⟩, ⟨3, 0, 4⟩, ⟨6, 0, 0⟩] (3/100) 5
        ⟨⟨1, 1, 1⟩, 0, vzero⟩).pathIndex <
      ([⟨0, 0, 0⟩, ⟨3, 0, 4⟩, ⟨6, 0, 0⟩] : List Vec3).length :=
  (follower_pathIndex_invariant [⟨0, 0, 0⟩, ⟨3, 0, 4⟩, ⟨6, 0, 0⟩] (3/100) 5
    ⟨⟨1, 1, 1⟩, 0, vzero⟩ (by decide) (by decide)).1

/-- Claim C5: the tick translates the entity by the normalized
waypoint-to-waypoint direction times moveSpeed with no deltaTime factor; when
the two waypoints differ the squared per-tick displacement is exactly
moveSpeed * moveSpeed (so for the nonnegative moveSpeed of the source the
displacement magnitude is exactly moveSpeed), and the entity is turned to
face the upcoming waypoint every tick. -/
theorem follower_step_displacement (path : List Vec3) (s n : ℚ) (f : Follower)
    (hn : n * n = sqNorm (vsub (followerNext path f) (path.getD f.pathIndex vzero)))
    (hn0 : 0 ≤ n) (hs : 0 ≤ s) :
    (animateFollower path s n f).pos =
      vadd f.pos (smul s (normalizeWith n
        (vsub (followerNext path f) (path.getD f.pathIndex vzero)))) ∧
    (vsub (followerNext path f) (path.getD f.pathIndex vzero) ≠ vzero →
      sqNorm (vsub (animateFollower path s n f).pos f.pos) = s * s) ∧
    (animateFollower path s n f).facing = followerNext path f := by
  refine ⟨rfl, ?_, rfl⟩
  intro hd
  have hsq : sqNorm (vsub (followerNext path f) (path.getD f.pathIndex vzero)) ≠ 0 :=
    fun h0 => hd ((sqNorm_eq_zero_iff _).mp h0)
  have hnne : n ≠ 0 := by
    intro h0
    rw [h0, mul_zero] at hn
    exact hsq hn.symm
  have hdisp : vsub (animateFollower path s n f).pos f.pos =
      smul s (normalizeWith n
        (vsub (followerNext path f) (path.getD f.pathIndex vzero))) := by
    show vsub (vadd f.pos _) f.pos = _
    exact vsub_vadd_left _ _
  rw [hdisp, normalizeWith, if_neg hnne, sqNorm_smul, sqNorm_smul, ← hn]
  field_simp

/-- Claim C5 witness: on a segment from the origin to (3, 0, 4) of length 5,
a tick at moveSpeed 3/100 displaces the entity by squared distance
(3/100)^2. -/
theorem follower_step_displacement_witness :
    sqNorm (vsub (animateFollower [⟨0, 0, 0⟩, ⟨3, 0, 4⟩, ⟨6, 0, 0⟩] (3/100) 5
        ⟨⟨1, 1, 1⟩, 0, vzero⟩).pos ⟨1, 1, 1⟩) = (3/100) * (3/100) := by
  have hn : (5 : ℚ) * 5 = sqNorm (vsub (⟨3, 0, 4⟩ : Vec3) (⟨0, 0, 0⟩ : Vec3)) := by
    norm_num [sqNorm, vsub]
  have hd : vsub (⟨3, 0, 4⟩ : Vec3) (⟨0, 0, 0⟩ : Vec3) ≠ vzero := by
    norm_num [vsub, vzero, Vec3.mk.injEq]
  exact (follower_step_displacement [⟨0, 0, 0⟩, ⟨3, 0, 4⟩, ⟨6, 0, 0⟩] (3/100) 5
    ⟨⟨1, 1, 1⟩, 0, vzero⟩ hn (by norm_num) (by norm_num)).2.1 hd

/-- Claim C2 fails: a ground-mist tick under zero deltaTime still moves a
particle with nonzero velocity, because the mist branch never references
deltaTime (here with bob term sin(time + i) = 0, realized at elapsed time 0
and particle index 0). -/
theorem zero_dt_mist_moves :
    (updateMistParticle 0 0 0 ⟨⟨0, 0, 0⟩, ⟨1, 0, 0⟩⟩).pos ≠
      (Particle.mk ⟨0, 0, 0⟩ ⟨1, 0, 0⟩).pos := by
  have hc : ¬ ((mistIntegrate 0 (Particle.mk ⟨0, 0, 0⟩ ⟨1, 0, 0⟩)).pos.x *
      (mistIntegrate 0 (Particle.mk ⟨0, 0, 0⟩ ⟨1, 0, 0⟩)).pos.x +
      (mistIntegrate 0 (Particle.mk ⟨0, 0, 0⟩ ⟨1, 0, 0⟩)).pos.z *
      (mistIntegrate 0 (Particle.mk ⟨0, 0, 0⟩ ⟨1, 0, 0⟩)).pos.z > 1600) := by
    norm_num [mistIntegrate]
  simp only [updateMistParticle, if_neg hc, mistIntegrate]
  intro h
  exact absurd (congrArg Vec3.x h) (by norm_num)

/-- Claim C2 amended: only the chimney smoke integrates with deltaTime; a
smoke particle whose lifetime is below 1 is a fixed point of the
zero-deltaTime smoke tick, so any number of zero-deltaTime ticks leaves its
position (indeed its whole state) unchanged, while the snow, firefly and
ground-mist branches apply per-tick displacements that never reference
deltaTime and so can move positions even at zero deltaTime. -/
theorem smoke_zero_dt_ticks_fix (rx rz : ℚ) (p : SmokeParticle)
    (h : p.lifetime < 1) (N : ℕ) :
    (fun q => updateSmokeParticle 0 rx rz q)^[N] p = p := by
  have hguard : ¬ 1 ≤ p.lifetime + 0 := by rw [add_zero]; exact not_le.mpr h
  have hstep : updateSmokeParticle 0 rx rz p = p := by
    simp only [updateSmokeParticle, if_neg hguard]
    cases p with
    | mk pos vel lt =>
      cases pos with
      | mk px py pz => simp [vadd, smul]
  exact Function.iterate_fixed hstep N

/-- Claim C2 witness: five zero-deltaTime smoke ticks leave a concrete
particle with lifetime 1/2 unchanged. -/
theorem smoke_zero_dt_ticks_fix_witness :
    (fun q => updateSmokeParticle 0 0 0 q)^[5] ⟨⟨1, 2, 3⟩, ⟨0, 1, 0⟩, 1/2⟩ =
      (⟨⟨1, 2, 3⟩, ⟨0, 1, 0⟩, 1/2⟩ : SmokeParticle) :=
  smoke_zero_dt_ticks_fix 0 0 ⟨⟨1, 2, 3⟩, ⟨0, 1, 0⟩, 1/2⟩ (by norm_num) 5

/-- Claim C3 fails at camera distance 149: with the house thresholds
[0, 50, 100] the selector picks the threshold-100 lowest-detail level (index
2), because 149 ≥ 100, not the threshold-50 medium level (index 1). -/
theorem lod_at_149_not_medium :
    lodSelect houseLODThresholds 149 = 2 ∧ lodSelect houseLODThresholds 149 ≠ 1 := by
  have h : lodSelect houseLODThresholds 149 = 2 := by
    norm_num [lodSelect, houseLODThresholds, lodSelectAux]
  exact ⟨h, by rw [h]; norm_num⟩

/-- Claim C3 amended: for the house thresholds [0, 50, 100] the selected
level is the one with the greatest threshold at most the camera distance:
index 0 below 50, index 1 (medium) from 50 up to but excluding 100 — in
particular at 75 — and index 2 (lowest detail) from 100 on — in particular at
149 and at 150. -/
theorem lod_select_houses (d : ℚ) :
    lodSelect houseLODThresholds d =
      (if 100 ≤ d then 2 else if 50 ≤ d then 1 else 0) ∧
    lodSelect houseLODThresholds 75 = 1 ∧
    lodSelect houseLODThresholds 149 = 2 ∧
    lodSelect houseLODThresholds 150 = 2 := by
  refine ⟨?_, ?_, ?_, ?_⟩
  · simp only [houseLODThresholds, lodSelect, lodSelectAux]
    split_ifs <;> first | rfl | (exfalso; linarith)
  · norm_num [lodSelect, houseLODThresholds, lodSelectAux]
  · norm_num [lodSelect, houseLODThresholds, lodSelectAux]
  · norm_num [lodSelect, houseLODThresholds, lodSelectAux]

/-- Claim C6 fails: in the per-frame snow tick a particle that fell below the
ground plane is reset to the maximum height 80 with fresh velocity, yet the
tick raises no snow-accumulation event. -/
theorem snow_reset_without_event :
    ((animateSnowParticleEv 0 (1/10) ⟨1/2, 1/2, 1/2, 1/2, 1/2⟩
        ⟨⟨0, -1, 0⟩, ⟨0, 0, 0⟩⟩).1).pos.y = 80 ∧
    (animateSnowParticleEv 0 (1/10) ⟨1/2, 1/2, 1/2, 1/2, 1/2⟩
        ⟨⟨0, -1, 0⟩, ⟨0, 0, 0⟩⟩).2 = [] := by
  have hc : (snowIntegrate 0 (1/10) (Particle.mk ⟨0, -1, 0⟩ ⟨0, 0, 0⟩)).pos.y < 0 := by
    norm_num [snowIntegrate]
  constructor
  · show (animateSnowParticle 0 (1/10) ⟨1/2, 1/2, 1/2, 1/2, 1/2⟩
        ⟨⟨0, -1, 0⟩, ⟨0, 0, 0⟩⟩).pos.y = 80
    unfold animateSnowParticle
    rw [if_pos hc]
    rfl
  · rfl

/-- Claim C6 amended: the per-frame snow tick (animateSnow) raises no
accumulation events; it resets a particle whose integrated height falls below
0 to the maximum height 80 with freshly randomized velocity, and wraps a
non-reset particle whose x leaves the ±60 boundary to the opposite edge.
Accumulation events come only from the background tick (updateSnow): there a
particle at or below the ground plane produces exactly one event at its
current (x, z) and is reset to height 50 with fresh random position and
velocity, and any other particle is untouched with no event. -/
theorem snow_ground_events (wX wZ : ℚ) (r : ResetRand) (p : Particle) :
    (animateSnowParticleEv wX wZ r p).2 = [] ∧
    (p.pos.y + p.vel.y < 0 →
      (animateSnowParticle wX wZ r p).pos.y = 80 ∧
      (animateSnowParticle wX wZ r p).vel =
        ⟨(r.rvx - 1/2) * (1/5), -(r.rvy * (3/10)) - 1/5, (r.rvz - 1/2) * (1/5)⟩) ∧
    (0 ≤ p.pos.y + p.vel.y → p.pos.x + p.vel.x + wX > 60 →
      (animateSnowParticle wX wZ r p).pos.x = -60) ∧
    (0 ≤ p.pos.y + p.vel.y → p.pos.x + p.vel.x + wX < -60 →
      (animateSnowParticle wX wZ r p).pos.x = 60) ∧
    (p.pos.y ≤ 0 →
      updateSnowParticle r p =
        (⟨⟨(r.rx - 1/2) * 100, 50, (r.rz - 1/2) * 100⟩,
          ⟨(r.rvx - 1/2) * (1/10), -(r.rvy * (1/2)) - 1/10, (r.rvz - 1/2) * (1/10)⟩⟩,
         [(p.pos.x, p.pos.z)])) ∧
    (¬ p.pos.y ≤ 0 → updateSnowParticle r p = (p, [])) := by
  refine ⟨rfl, ?_, ?_, ?_, ?_, ?_⟩
  · intro hy
    have hcond : (snowIntegrate wX wZ p).pos.y < 0 := hy
    simp only [animateSnowParticle, if_pos hcond]
    exact ⟨rfl, rfl⟩
  · intro hy hx
    have hcond : ¬ (snowIntegrate wX wZ p).pos.y < 0 := not_lt.mpr hy
    simp only [animateSnowParticle, if_neg hcond]
    show wrapEdge (p.pos.x + p.vel.x + wX) = -60
    unfold wrapEdge
    rw [if_pos hx]
  · intro hy hx
    have hcond : ¬ (snowIntegrate wX wZ p).pos.y < 0 := not_lt.mpr hy
    simp only [animateSnowParticle, if_neg hcond]
    show wrapEdge (p.pos.x + p.vel.x + wX) = 60
    have hng : ¬ p.pos.x + p.vel.x + wX > 60 := by linarith
    unfold wrapEdge
    rw [if_neg hng, if_pos hx]
  · intro hy
    simp only [updateSnowParticle, if_pos hy]
  · intro hy
    simp only [updateSnowParticle, if_neg hy]

/-- Claim C6 witness: a concrete background-tick particle at the ground plane
produces exactly one event at its (x, z) and resets to height 50. -/
theorem snow_ground_events_witness :
    updateSnowParticle ⟨1/2, 1/2, 1/2, 1/2, 1/2⟩ ⟨⟨2, 0, 3⟩, ⟨0, 0, 0⟩⟩ =
      (⟨⟨0, 50, 0⟩, ⟨0, -(7/20), 0⟩⟩, [(2, 3)]) := by
  have h := (snow_ground_events 0 0 ⟨1/2, 1/2, 1/2, 1/2, 1/2⟩
    ⟨⟨2, 0, 3⟩, ⟨0, 0, 0⟩⟩).2.2.2.2.1 (by norm_num)
  rw [h]
  norm_num [Prod.mk.injEq, Particle.mk.injEq, Vec3.mk.injEq]

/-- Claim C7: when the integrated XZ position of a mist particle leaves the
radius-40 disc, the same tick reprojects it onto the boundary circle: the new
squared XZ magnitude is exactly 1600 and the new XZ vector is the old one
scaled by the positive factor 40 / n (same polar angle), while y keeps its
integrated value and the velocity is untouched. -/
theorem mist_radial_clamp (dt sinBob n : ℚ) (p : Particle)
    (hout : (mistIntegrate sinBob p).pos.x * (mistIntegrate sinBob p).pos.x +
      (mistIntegrate sinBob p).pos.z * (mistIntegrate sinBob p).pos.z > 1600)
    (hn : n * n = (mistIntegrate sinBob p).pos.x * (mistIntegrate sinBob p).pos.x +
      (mistIntegrate sinBob p).pos.z * (mistIntegrate sinBob p).pos.z)
    (hn0 : 0 ≤ n) :
    (updateMistParticle dt sinBob n p).pos.x * (updateMistParticle dt sinBob n p).pos.x +
      (updateMistParticle dt sinBob n p).pos.z * (updateMistParticle dt sinBob n p).pos.z
      = 1600 ∧
    (updateMistParticle dt sinBob n p).pos.x = (40 / n) * (mistIntegrate sinBob p).pos.x ∧
    (updateMistParticle dt sinBob n p).pos.z = (40 / n) * (mistIntegrate sinBob p).pos.z ∧
    0 < 40 / n ∧
    (updateMistParticle dt sinBob n p).pos.y = p.pos.y + sinBob * (1/1000) ∧
    (updateMistParticle dt sinBob n p).vel = p.vel := by
  have hnpos : 0 < n := by
    rcases lt_or_eq_of_le hn0 with hlt | heq
    · exact hlt
    · exfalso
      rw [← heq, mul_zero] at hn
      linarith
  have hne : n ≠ 0 := ne_of_gt hnpos
  have hred : updateMistParticle dt sinBob n p =
      ⟨⟨(mistIntegrate sinBob p).pos.x / n * 40, (mistIntegrate sinBob p).pos.y,
        (mistIntegrate sinBob p).pos.z / n * 40⟩, p.vel⟩ := by
    simp only [updateMistParticle, if_pos hout]
  rw [hred]
  refine ⟨?_, by field_simp; ring, by field_simp; ring, ?_, rfl, rfl⟩
  · show (mistIntegrate sinBob p).pos.x / n * 40 * ((mistIntegrate sinBob p).pos.x / n * 40) +
      (mistIntegrate sinBob p).pos.z / n * 40 * ((mistIntegrate sinBob p).pos.z / n * 40) = 1600
    have h1 : (mistIntegrate sinBob p).pos.x / n * 40 * ((mistIntegrate sinBob p).pos.x / n * 40) +
        (mistIntegrate sinBob p).pos.z / n * 40 * ((mistIntegrate sinBob p).pos.z / n * 40) =
        ((mistIntegrate sinBob p).pos.x * (mistIntegrate sinBob p).pos.x +
          (mistIntegrate sinBob p).pos.z * (mistIntegrate sinBob p).pos.z) / (n * n) * 1600 := by
      field_simp
      ring
    rw [h1, ← hn, div_self (mul_ne_zero hne hne), one_mul]
  · exact div_pos (by norm_num) hnpos

/-- Claim C7 witness: a mist particle integrated to (30, 1, 40), at XZ radius
50, is reprojected to squared XZ magnitude exactly 1600. -/
theorem mist_radial_clamp_witness :
    (updateMistParticle 0 0 50 ⟨⟨30, 1, 40⟩, ⟨0, 0, 0⟩⟩).pos.x *
        (updateMistParticle 0 0 50 ⟨⟨30, 1, 40⟩, ⟨0, 0, 0⟩⟩).pos.x +
      (updateMistParticle 0 0 50 ⟨⟨30, 1, 40⟩, ⟨0, 0, 0⟩⟩).pos.z *
        (updateMistParticle 0 0 50 ⟨⟨30, 1, 40⟩, ⟨0, 0, 0⟩⟩).pos.z = 1600 :=
  (mist_radial_clamp 0 0 50 ⟨⟨30, 1, 40⟩, ⟨0, 0, 0⟩⟩
    (by norm_num [mistIntegrate]) (by norm_num [mistIntegrate]) (by norm_num)).1

/-- Claim C9 (defect exhibit): the gate time % 2 < deltaTime of the secondary
updates is not an every-other-frame parity test: at 60 fps it is false on two
consecutive executed frames (elapsed times 1/2 and 1/2 + 1/60), and true only
in a frame that crosses an even-second boundary, as at elapsed time 2 — so
the gated updates run about once every two seconds, not on alternating
frames. -/
theorem frameSkip_not_alternating :
    frameSkip (1/2) (1/60) = false ∧
    frameSkip (1/2 + 1/60) (1/60) = false ∧
    frameSkip 2 (1/60) = true := by
  have m1 : jsMod (1/2) 2 = 1/2 := by
    unfold jsMod
    rw [show ⌊(1/2 : ℚ) / 2⌋ = 0 from by
      rw [Int.floor_eq_zero_iff]
      exact Set.mem_Ico.mpr ⟨by norm_num, by norm_num⟩]
    norm_num
  have m2 : jsMod (1/2 + 1/60) 2 = 1/2 + 1/60 := by
    unfold jsMod
    rw [show ⌊(1/2 + 1/60 : ℚ) / 2⌋ = 0 from by
      rw [Int.floor_eq_zero_iff]
      exact Set.mem_Ico.mpr ⟨by norm_num, by norm_num⟩]
    norm_num
  have m3 : jsMod 2 2 = 0 := by
    unfold jsMod
    rw [show (2 : ℚ) / 2 = 1 from by norm_num, Int.floor_one]
    norm_num
  refine ⟨?_, ?_, ?_⟩
  · unfold frameSkip
    rw [m1]
    exact decide_eq_false (by norm_num)
  · unfold frameSkip
    rw [m2]
    exact decide_eq_false (by norm_num)
  · unfold frameSkip
    rw [m3]
    exact decide_eq_true (by norm_num)

end ChristmasVillage
